import Mathlib

/-!
# Verification of the Virtual Bunny Care engine (`src/bunny.py`)

A shallow embedding of the bunny simulation engine and its HTTP handlers.
Python floats are modelled by `ℚ` (every constant in the source is an exact
decimal, so rational arithmetic reproduces the intended real-number
semantics exactly).  Wall-clock time is an explicit `ℚ` parameter threaded
through each operation: the source reads `datetime.now()`; each top-level
request is modelled as happening at a single instant `now`.
-/

namespace BunnyCare

/-- `clamp(v, lo=0, hi=100)` from the source, specialised to the default
bounds, the only way the source ever calls it:
`return max(lo, min(hi, v))`. -/
def clamp (v : ℚ) : ℚ := max 0 (min 100 v)

/-- The mutable state of the `Bunny` object: the four stats dictionary,
`last_update`, `perfect_count`, `last_perfect`. -/
structure BunnyState where
  hunger : ℚ
  happiness : ℚ
  cleanliness : ℚ
  energy : ℚ
  last_update : ℚ
  perfect_count : ℕ
  last_perfect : Bool
  deriving Repr, DecidableEq

/-- `self.decay_wait = 10  # seconds`. -/
def decay_wait : ℚ := 10

/-- `Bunny.__init__`: initial stats 40/70/80/70, `last_update = now`,
`perfect_count = 0`, `last_perfect = False`. -/
def initState (now : ℚ) : BunnyState :=
  { hunger := 40
    happiness := 70
    cleanliness := 80
    energy := 70
    last_update := now
    perfect_count := 0
    last_perfect := false }

/-- `Bunny._decay`: if `elapsed_sec <= decay_wait` return unchanged,
otherwise apply the per-10-second-tick rates 1.2 / 0.4 / 0.3 / 0.3 via
`clamp` and set `last_update = now`. -/
def decay (s : BunnyState) (now : ℚ) : BunnyState :=
  let elapsed_sec := now - s.last_update
  if elapsed_sec ≤ decay_wait then s
  else
    { s with
      hunger := clamp (s.hunger + 1.2 * (elapsed_sec / 10))
      happiness := clamp (s.happiness - 0.4 * (elapsed_sec / 10))
      cleanliness := clamp (s.cleanliness - 0.3 * (elapsed_sec / 10))
      energy := clamp (s.energy + 0.3 * (elapsed_sec / 10))
      last_update := now }

/-- The `perfect` test inside `Bunny.status`:
`hunger <= 0.1 and happiness >= 99.9 and cleanliness >= 99.9 and energy >= 99.9`. -/
def isPerfect (s : BunnyState) : Bool :=
  decide (s.hunger ≤ 0.1 ∧ s.happiness ≥ 99.9 ∧ s.cleanliness ≥ 99.9 ∧ s.energy ≥ 99.9)

/-- Python 3 `round` at an exact rational: round half to even. -/
def round_half_even (x : ℚ) : ℤ :=
  if x - ⌊x⌋ < 1/2 then ⌊x⌋
  else if 1/2 < x - ⌊x⌋ then ⌊x⌋ + 1
  else if ⌊x⌋ % 2 = 0 then ⌊x⌋ else ⌊x⌋ + 1

/-- `round(health, 1)`: round to one decimal place. -/
def round1 (x : ℚ) : ℚ := (round_half_even (x * 10) : ℚ) / 10

/-- The JSON snapshot returned by every engine method:
`{**self.state, "overallHealth": round(health, 1), "easterBunny": easter_bunny}`. -/
structure Snapshot where
  hunger : ℚ
  happiness : ℚ
  cleanliness : ℚ
  energy : ℚ
  overallHealth : ℚ
  easterBunny : Bool
  deriving Repr, DecidableEq

/-- `Bunny.status`: apply `_decay`, compute `health` and `perfect`,
edge-trigger `perfect_count`, set `last_perfect`, and return the snapshot
together with the mutated state. -/
def status (s : BunnyState) (now : ℚ) : Snapshot × BunnyState :=
  let s1 := decay s now
  let health := clamp (100 - s1.hunger) * 0.4 + s1.happiness * 0.3
      + s1.cleanliness * 0.2 + s1.energy * 0.1
  let perfect := isPerfect s1
  let new_count := if perfect && !s1.last_perfect then s1.perfect_count + 1
      else s1.perfect_count
  let s2 := { s1 with perfect_count := new_count, last_perfect := perfect }
  let easter_bunny := decide (new_count = 2)
  ({ hunger := s1.hunger
     happiness := s1.happiness
     cleanliness := s1.cleanliness
     energy := s1.energy
     overallHealth := round1 health
     easterBunny := easter_bunny }, s2)

/-- The two feed kinds accepted by `Bunny.feed`. -/
inductive FeedKind where
  | carrot : FeedKind
  | pellet : FeedKind
  deriving Repr, DecidableEq

/-- `Bunny.feed(kind, pellet_count=1)`: apply `_decay`, apply the kind's
stat deltas via `clamp`, add 5 energy, return `self.status()`. -/
def feed (s : BunnyState) (kind : FeedKind) (pellet_count : ℤ) (now : ℚ) :
    Snapshot × BunnyState :=
  let s1 := decay s now
  let s2 :=
    match kind with
    | FeedKind.carrot =>
        { s1 with
          hunger := clamp (s1.hunger - 18)
          happiness := clamp (s1.happiness + 6) }
    | FeedKind.pellet =>
        let mess : ℤ := if pellet_count ≤ 5 then pellet_count
            else 5 + 2 * (pellet_count - 5)
        { s1 with
          hunger := clamp (s1.hunger - (min (2 * pellet_count) 10 : ℤ))
          cleanliness := clamp (s1.cleanliness - (mess : ℚ)) }
  let s3 := { s2 with energy := clamp (s2.energy + 5) }
  status s3 now

/-- The two play kinds accepted by `Bunny.play`. -/
inductive PlayKind where
  | pat : PlayKind
  | toy : PlayKind
  deriving Repr, DecidableEq

/-- `Bunny.play(kind)`: apply `_decay`, apply the kind's stat deltas via
`clamp`, return `self.status()`. -/
def play (s : BunnyState) (kind : PlayKind) (now : ℚ) : Snapshot × BunnyState :=
  let s1 := decay s now
  let s2 :=
    match kind with
    | PlayKind.pat =>
        { s1 with
          happiness := clamp (s1.happiness + 10)
          energy := clamp (s1.energy + 3) }
    | PlayKind.toy =>
        { s1 with
          happiness := clamp (s1.happiness + 16)
          energy := clamp (s1.energy - 8)
          cleanliness := clamp (s1.cleanliness - 2) }
  status s2 now

/-- `Bunny.clean()`: apply `_decay`, add 25 cleanliness and 4 happiness via
`clamp`, return `self.status()`. -/
def clean (s : BunnyState) (now : ℚ) : Snapshot × BunnyState :=
  let s1 := decay s now
  let s2 := { s1 with
      cleanliness := clamp (s1.cleanliness + 25)
      happiness := clamp (s1.happiness + 4) }
  status s2 now

/-- `Bunny.reset()`: `self.__init__()` then `return self.status()`. -/
def reset (_s : BunnyState) (now : ℚ) : Snapshot × BunnyState :=
  status (initState now) now

/-! ## Transport layer (`FastAPI` handlers) -/

/-- The `kind` values representable by the pydantic `Action` model,
`Literal["carrot", "pellet", "pat", "toy"]`. -/
inductive ActionKind where
  | carrot : ActionKind
  | pellet : ActionKind
  | pat : ActionKind
  | toy : ActionKind
  deriving Repr, DecidableEq

/-- The pydantic request model `Action`: an optional `kind` (defaulting to
`None`) and an optional `pellet_count`. -/
structure Action where
  kind : Option ActionKind
  pellet_count : Option ℤ
  deriving Repr, DecidableEq

/-- A handler's JSON response body: either a snapshot or an object with a
single `error` field. -/
inductive Response where
  | ok : Snapshot → Response
  | error : String → Response
  deriving Repr, DecidableEq

/-- The error body of `POST /api/feed` for an invalid kind. -/
def invalid_feed_msg : String :=
  "Invalid feed kind. Use \x27carrot\x27 or \x27pellet\x27."

/-- The error body of `POST /api/play` for an invalid kind. -/
def invalid_play_msg : String :=
  "Invalid play kind. Use \x27pat\x27 or \x27toy\x27."

/-- The `POST /api/feed` handler: reject a `kind` outside
`("carrot", "pellet")` with the fixed error body and no engine call;
otherwise default `pellet_count` to 1 unless `kind == "pellet"` and a
count was supplied, and call `bunny.feed`. -/
def feedHandler (action : Action) (s : BunnyState) (now : ℚ) :
    Response × BunnyState :=
  match action.kind with
  | some ActionKind.carrot =>
      let r := feed s FeedKind.carrot 1 now
      (Response.ok r.1, r.2)
  | some ActionKind.pellet =>
      let pellet_count := match action.pellet_count with
        | some n => n
        | none => 1
      let r := feed s FeedKind.pellet pellet_count now
      (Response.ok r.1, r.2)
  | _ => (Response.error invalid_feed_msg, s)

/-- The `POST /api/play` handler: reject a `kind` outside `("pat", "toy")`
with the fixed error body and no engine call; otherwise call `bunny.play`. -/
def playHandler (action : Action) (s : BunnyState) (now : ℚ) :
    Response × BunnyState :=
  match action.kind with
  | some ActionKind.pat =>
      let r := play s PlayKind.pat now
      (Response.ok r.1, r.2)
  | some ActionKind.toy =>
      let r := play s PlayKind.toy now
      (Response.ok r.1, r.2)
  | _ => (Response.error invalid_play_msg, s)

/-! ## Operation sequences -/

/-- One public engine operation, as invocable through the API. -/
inductive Op where
  | status : Op
  | feed : FeedKind → ℤ → Op
  | play : PlayKind → Op
  | clean : Op
  | reset : Op
  deriving Repr, DecidableEq

/-- The state after applying one operation at time `now`. -/
def applyOp (s : BunnyState) : Op → ℚ → BunnyState
  | Op.status, now => (status s now).2
  | Op.feed k pc, now => (feed s k pc now).2
  | Op.play k, now => (play s k now).2
  | Op.clean, now => (clean s now).2
  | Op.reset, now => (reset s now).2

/-- The state after applying a timed sequence of operations in order. -/
def runOps (s : BunnyState) : List (Op × ℚ) → BunnyState
  | [] => s
  | (op, t) :: rest => runOps (applyOp s op t) rest

/-- Iterated `status` calls at a fixed instant (a burst of observations of
a sustained condition). -/
def statusIter (s : BunnyState) (now : ℚ) : ℕ → BunnyState
  | 0 => s
  | n + 1 => (status (statusIter s now n) now).2

/-- All four core stats lie in `[0, 100]`. -/
def InRange (s : BunnyState) : Prop :=
  0 ≤ s.hunger ∧ s.hunger ≤ 100 ∧
  0 ≤ s.happiness ∧ s.happiness ≤ 100 ∧
  0 ≤ s.cleanliness ∧ s.cleanliness ≤ 100 ∧
  0 ≤ s.energy ∧ s.energy ≤ 100

/-! ## Helper lemmas -/

lemma clamp_nonneg (v : ℚ) : 0 ≤ clamp v := le_max_left 0 _

lemma clamp_le_hundred (v : ℚ) : clamp v ≤ 100 :=
  max_le (by norm_num) (min_le_left _ _)

lemma le_clamp_add {v d : ℚ} (h100 : v ≤ 100) (hd : 0 ≤ d) :
    v ≤ clamp (v + d) :=
  le_trans (le_min h100 (by linarith)) (le_max_right _ _)

lemma lt_clamp_add {v w d : ℚ} (h100 : w < 100) (hw : w ≤ v) (hd : 0 < d) :
    w < clamp (v + d) :=
  lt_of_lt_of_le (lt_min h100 (by linarith)) (le_max_right _ _)

lemma clamp_sub_le {v d : ℚ} (h0 : 0 ≤ v) (hd : 0 ≤ d) :
    clamp (v - d) ≤ v :=
  max_le h0 (le_trans (min_le_right _ _) (by linarith))

lemma clamp_sub_lt {v w d : ℚ} (h0 : 0 < w) (hv : v ≤ w) (hw : w ≤ 100)
    (hd : 0 < d) : clamp (v - d) < w := by
  have hmin : min 100 (v - d) = v - d := min_eq_right (by linarith)
  unfold clamp
  rw [hmin]
  exact max_lt h0 (by linarith)

lemma sub_clamp_le {v d : ℚ} (h100 : v ≤ 100) (hd : d ≤ 10) :
    v - clamp (v - d) ≤ 10 := by
  have h1 : min 100 (v - d) ≤ clamp (v - d) := le_max_right 0 _
  rcases le_total 100 (v - d) with hc | hc
  · have : min 100 (v - d) = 100 := min_eq_left hc
    linarith [this ▸ h1]
  · have : min 100 (v - d) = v - d := min_eq_right hc
    linarith [this ▸ h1]

lemma decay_noop {s : BunnyState} {now : ℚ}
    (h : now - s.last_update ≤ decay_wait) : decay s now = s := by
  simp [decay, h]

lemma decay_perfect_count (s : BunnyState) (now : ℚ) :
    (decay s now).perfect_count = s.perfect_count := by
  simp only [decay]
  split_ifs <;> rfl

lemma decay_last_perfect (s : BunnyState) (now : ℚ) :
    (decay s now).last_perfect = s.last_perfect := by
  simp only [decay]
  split_ifs <;> rfl

lemma decay_elapsed_le (s : BunnyState) (now : ℚ) :
    now - (decay s now).last_update ≤ decay_wait := by
  simp only [decay]
  split_ifs with h
  · exact h
  · simp [decay_wait]

lemma status_fst_stats (s : BunnyState) (now : ℚ) :
    (status s now).1.hunger = (decay s now).hunger ∧
    (status s now).1.happiness = (decay s now).happiness ∧
    (status s now).1.cleanliness = (decay s now).cleanliness ∧
    (status s now).1.energy = (decay s now).energy :=
  ⟨rfl, rfl, rfl, rfl⟩

lemma status_snd_stats (s : BunnyState) (now : ℚ) :
    (status s now).2.hunger = (decay s now).hunger ∧
    (status s now).2.happiness = (decay s now).happiness ∧
    (status s now).2.cleanliness = (decay s now).cleanliness ∧
    (status s now).2.energy = (decay s now).energy ∧
    (status s now).2.last_update = (decay s now).last_update :=
  ⟨rfl, rfl, rfl, rfl, rfl⟩

lemma status_snd_last_perfect (s : BunnyState) (now : ℚ) :
    (status s now).2.last_perfect = isPerfect (decay s now) := rfl

lemma status_snd_perfect_count (s : BunnyState) (now : ℚ) :
    (status s now).2.perfect_count =
      if isPerfect (decay s now) && !(decay s now).last_perfect
      then (decay s now).perfect_count + 1
      else (decay s now).perfect_count := rfl

lemma status_fst_easter (s : BunnyState) (now : ℚ) :
    (status s now).1.easterBunny = decide ((status s now).2.perfect_count = 2) :=
  rfl

lemma initState_inRange (t : ℚ) : InRange (initState t) := by
  norm_num [InRange, initState]

lemma decay_inRange {s : BunnyState} (now : ℚ) (h : InRange s) :
    InRange (decay s now) := by
  simp only [decay]
  split_ifs with hc
  · exact h
  · exact ⟨clamp_nonneg _, clamp_le_hundred _, clamp_nonneg _, clamp_le_hundred _,
      clamp_nonneg _, clamp_le_hundred _, clamp_nonneg _, clamp_le_hundred _⟩

lemma status_inRange {s : BunnyState} (now : ℚ) (h : InRange s) :
    InRange (status s now).2 := by
  obtain ⟨e1, e2, e3, e4, _⟩ := status_snd_stats s now
  obtain ⟨d1, d2, d3, d4, d5, d6, d7, d8⟩ := decay_inRange now h
  exact ⟨e1 ▸ d1, e1 ▸ d2, e2 ▸ d3, e2 ▸ d4, e3 ▸ d5, e3 ▸ d6, e4 ▸ d7, e4 ▸ d8⟩

lemma hunger_le_decay {s : BunnyState} (now : ℚ) (h : InRange s) :
    s.hunger ≤ (decay s now).hunger := by
  simp only [decay]
  split_ifs with hc
  · exact le_refl _
  · have he : (10 : ℚ) < now - s.last_update := by
      simpa [decay_wait] using not_le.mp hc
    exact le_clamp_add h.2.1 (by nlinarith)

lemma feed_inRange {s : BunnyState} (k : FeedKind) (pc : ℤ) (now : ℚ)
    (h : InRange s) : InRange (feed s k pc now).2 := by
  obtain ⟨d1, d2, d3, d4, d5, d6, d7, d8⟩ := decay_inRange now h
  cases k with
  | carrot =>
      exact status_inRange now ⟨clamp_nonneg _, clamp_le_hundred _, clamp_nonneg _,
        clamp_le_hundred _, d5, d6, clamp_nonneg _, clamp_le_hundred _⟩
  | pellet =>
      exact status_inRange now ⟨clamp_nonneg _, clamp_le_hundred _, d3, d4,
        clamp_nonneg _, clamp_le_hundred _, clamp_nonneg _, clamp_le_hundred _⟩

lemma play_inRange {s : BunnyState} (k : PlayKind) (now : ℚ)
    (h : InRange s) : InRange (play s k now).2 := by
  obtain ⟨d1, d2, d3, d4, d5, d6, d7, d8⟩ := decay_inRange now h
  cases k with
  | pat =>
      exact status_inRange now ⟨d1, d2, clamp_nonneg _, clamp_le_hundred _,
        d5, d6, clamp_nonneg _, clamp_le_hundred _⟩
  | toy =>
      exact status_inRange now ⟨d1, d2, clamp_nonneg _, clamp_le_hundred _,
        clamp_nonneg _, clamp_le_hundred _, clamp_nonneg _, clamp_le_hundred _⟩

lemma clean_inRange {s : BunnyState} (now : ℚ) (h : InRange s) :
    InRange (clean s now).2 := by
  obtain ⟨d1, d2, d3, d4, d5, d6, d7, d8⟩ := decay_inRange now h
  exact status_inRange now ⟨d1, d2, clamp_nonneg _, clamp_le_hundred _,
    clamp_nonneg _, clamp_le_hundred _, d7, d8⟩

lemma reset_inRange (s : BunnyState) (now : ℚ) : InRange (reset s now).2 :=
  status_inRange now (initState_inRange now)

lemma applyOp_inRange {s : BunnyState} (op : Op) (t : ℚ) (h : InRange s) :
    InRange (applyOp s op t) := by
  cases op with
  | status => exact status_inRange t h
  | feed k pc => exact feed_inRange k pc t h
  | play k => exact play_inRange k t h
  | clean => exact clean_inRange t h
  | reset => exact reset_inRange s t

lemma runOps_inRange (ops : List (Op × ℚ)) {s : BunnyState} (h : InRange s) :
    InRange (runOps s ops) := by
  induction ops generalizing s with
  | nil => exact h
  | cons p rest ih => exact ih (applyOp_inRange p.1 p.2 h)

lemma status_snd_stats_noop {u : BunnyState} {now : ℚ}
    (hle : now - u.last_update ≤ decay_wait) :
    (status u now).2.hunger = u.hunger ∧
    (status u now).2.happiness = u.happiness ∧
    (status u now).2.cleanliness = u.cleanliness ∧
    (status u now).2.energy = u.energy := by
  obtain ⟨e1, e2, e3, e4, _⟩ := status_snd_stats u now
  rw [decay_noop hle] at e1 e2 e3 e4
  exact ⟨e1, e2, e3, e4⟩

lemma feed_pellet_state (s : BunnyState) (pc : ℤ) (now : ℚ) :
    (feed s FeedKind.pellet pc now).2.hunger =
      clamp ((decay s now).hunger - ((min (2 * pc) 10 : ℤ) : ℚ)) ∧
    (feed s FeedKind.pellet pc now).2.cleanliness =
      clamp ((decay s now).cleanliness -
        ((if pc ≤ 5 then pc else 5 + 2 * (pc - 5) : ℤ) : ℚ)) ∧
    (feed s FeedKind.pellet pc now).2.energy =
      clamp ((decay s now).energy + 5) := by
  obtain ⟨e1, e2, e3, e4⟩ := @status_snd_stats_noop
    { decay s now with
      hunger := clamp ((decay s now).hunger - ((min (2 * pc) 10 : ℤ) : ℚ)),
      cleanliness := clamp ((decay s now).cleanliness -
        ((if pc ≤ 5 then pc else 5 + 2 * (pc - 5) : ℤ) : ℚ)),
      energy := clamp ((decay s now).energy + 5) }
    now (decay_elapsed_le s now)
  exact ⟨e1, e3, e4⟩

lemma status_snd_fix {u : BunnyState} {now : ℚ}
    (hle : now - u.last_update ≤ decay_wait)
    (hp : u.last_perfect = isPerfect u) : (status u now).2 = u := by
  have hd : decay u now = u := decay_noop hle
  simp only [status, hd, ← hp, Bool.and_not_self, Bool.false_eq_true, if_false]

lemma statusIter_stable (s : BunnyState) (now : ℚ) :
    ∀ n : ℕ, statusIter s now (n + 1) = (status s now).2 := by
  intro n
  induction n with
  | zero => rfl
  | succ n ih =>
      show (status (statusIter s now (n + 1)) now).2 = (status s now).2
      rw [ih]
      apply status_snd_fix
      · exact decay_elapsed_le s now
      · rfl

/-! ## Claim theorems -/

/-- Claim C1: for every call to the internal decay step, if the elapsed
seconds since `last_update` are strictly greater than `decay_wait` (10),
then hunger gains `1.2 × (elapsed/10)`, happiness loses
`0.4 × (elapsed/10)`, cleanliness loses `0.3 × (elapsed/10)`, energy gains
`0.3 × (elapsed/10)`, each result clamped to `[0,100]`, and `last_update`
is set to the current time; if elapsed `≤ decay_wait`, neither the stats
nor `last_update` change. -/
theorem decay_step_spec (s : BunnyState) (now : ℚ) :
    (decay_wait < now - s.last_update →
      (decay s now).hunger = clamp (s.hunger + 1.2 * ((now - s.last_update) / 10)) ∧
      (decay s now).happiness = clamp (s.happiness - 0.4 * ((now - s.last_update) / 10)) ∧
      (decay s now).cleanliness = clamp (s.cleanliness - 0.3 * ((now - s.last_update) / 10)) ∧
      (decay s now).energy = clamp (s.energy + 0.3 * ((now - s.last_update) / 10)) ∧
      (decay s now).last_update = now) ∧
    (now - s.last_update ≤ decay_wait → decay s now = s) := by
  constructor
  · intro h
    have h' : ¬ now - s.last_update ≤ decay_wait := not_le.mpr h
    simp [decay, h']
  · intro h
    exact decay_noop h

/-- Witness for C1: at 20 seconds elapsed the decay applies and stamps
`last_update`; at 5 seconds elapsed the step is a no-op. -/
theorem decay_step_spec_witness :
    decay_wait < (20 : ℚ) - (initState 0).last_update ∧
    (decay (initState 0) 20).last_update = 20 ∧
    (5 : ℚ) - (initState 0).last_update ≤ decay_wait ∧
    decay (initState 0) 5 = initState 0 := by
  refine ⟨by norm_num [initState, decay_wait], ?_, by norm_num [initState, decay_wait], ?_⟩
  · exact ((decay_step_spec (initState 0) 20).1
      (by norm_num [initState, decay_wait])).2.2.2.2
  · exact (decay_step_spec (initState 0) 5).2 (by norm_num [initState, decay_wait])

/-- Claim C2: for every sequence of operations (status, feed with any kind
and any integer pellet count, play with any kind, clean, reset) starting
from the initial state, all four stats lie in `[0,100]` after every
operation. -/
theorem stats_always_in_range (t0 : ℚ) (ops : List (Op × ℚ)) :
    InRange (runOps (initState t0) ops) :=
  runOps_inRange ops (initState_inRange t0)

/-- Claim C3: `perfect_count` increments by exactly 1 on a status
computation where the perfect condition holds (on the decayed state) and
`last_perfect` was false, and never otherwise; `last_perfect` is set to
the current perfect value on every status computation; the returned
`easterBunny` flag is true exactly when the updated `perfect_count`
equals 2; and a burst of repeated status observations of a sustained
state never increments the counter beyond the first observation. -/
theorem perfect_edge_trigger (s : BunnyState) (now : ℚ) :
    ((isPerfect (decay s now) = true ∧ s.last_perfect = false →
        (status s now).2.perfect_count = s.perfect_count + 1) ∧
      (¬(isPerfect (decay s now) = true ∧ s.last_perfect = false) →
        (status s now).2.perfect_count = s.perfect_count)) ∧
    (status s now).2.last_perfect = isPerfect (decay s now) ∧
    ((status s now).1.easterBunny = true ↔ (status s now).2.perfect_count = 2) ∧
    (∀ n : ℕ, (statusIter s now (n + 1)).perfect_count =
      (statusIter s now 1).perfect_count) := by
  refine ⟨⟨?_, ?_⟩, rfl, ?_, ?_⟩
  · rintro ⟨hp, hl⟩
    rw [status_snd_perfect_count, decay_last_perfect, decay_perfect_count]
    simp [hp, hl]
  · intro h
    rw [status_snd_perfect_count, decay_last_perfect, decay_perfect_count]
    by_cases hp : isPerfect (decay s now) = true <;>
      by_cases hl : s.last_perfect = true <;> simp_all
  · rw [status_fst_easter]
    simp
  · intro n
    rw [statusIter_stable s now n, statusIter_stable s now 0]

/-- Witness for C3: a state that is perfect after decay with
`last_perfect = false` has its counter incremented from 0 to 1 by one
status call. -/
theorem perfect_edge_trigger_witness :
    (isPerfect (decay ⟨0, 100, 100, 100, 0, 0, false⟩ 0) = true ∧
      (⟨0, 100, 100, 100, 0, 0, false⟩ : BunnyState).last_perfect = false) ∧
    (status ⟨0, 100, 100, 100, 0, 0, false⟩ 0).2.perfect_count =
      (⟨0, 100, 100, 100, 0, 0, false⟩ : BunnyState).perfect_count + 1 := by
  have hp : isPerfect (decay ⟨0, 100, 100, 100, 0, 0, false⟩ 0) = true ∧
      (⟨0, 100, 100, 100, 0, 0, false⟩ : BunnyState).last_perfect = false := by
    norm_num [isPerfect, decay, decay_wait]
  exact ⟨hp, (perfect_edge_trigger ⟨0, 100, 100, 100, 0, 0, false⟩ 0).1.1 hp⟩

/-- Claim C4: after any sequence of actions, `reset()` returns a snapshot
with stats exactly hunger 40, happiness 70, cleanliness 80, energy 70 and
`easterBunny = false`, and leaves `perfect_count = 0` and
`last_perfect = false`, with `last_update` set to the reset time. -/
theorem reset_spec (s : BunnyState) (now : ℚ) :
    (reset s now).1.hunger = 40 ∧ (reset s now).1.happiness = 70 ∧
    (reset s now).1.cleanliness = 80 ∧ (reset s now).1.energy = 70 ∧
    (reset s now).1.easterBunny = false ∧
    (reset s now).2.hunger = 40 ∧ (reset s now).2.happiness = 70 ∧
    (reset s now).2.cleanliness = 80 ∧ (reset s now).2.energy = 70 ∧
    (reset s now).2.perfect_count = 0 ∧ (reset s now).2.last_perfect = false ∧
    (reset s now).2.last_update = now := by
  norm_num [reset, status, decay, initState, decay_wait, isPerfect]

/-- Claim C5: `feed("pellet", pellet_count)` reduces hunger by
`min(2 × pellet_count, 10)` before clamping, reduces cleanliness by a mess
cost of `pellet_count` when `pellet_count ≤ 5` and
`5 + 2 × (pellet_count − 5)` otherwise, increases energy by 5, and drops
hunger by at most 10 relative to the pre-call value. -/
theorem feed_pellet_spec (s : BunnyState) (pc : ℤ) (now : ℚ) (h : InRange s) :
    (feed s FeedKind.pellet pc now).2.hunger =
      clamp ((decay s now).hunger - ((min (2 * pc) 10 : ℤ) : ℚ)) ∧
    (feed s FeedKind.pellet pc now).2.cleanliness =
      clamp ((decay s now).cleanliness -
        ((if pc ≤ 5 then pc else 5 + 2 * (pc - 5) : ℤ) : ℚ)) ∧
    (feed s FeedKind.pellet pc now).2.energy =
      clamp ((decay s now).energy + 5) ∧
    s.hunger - (feed s FeedKind.pellet pc now).2.hunger ≤ 10 := by
  obtain ⟨hhun, hclean, hen⟩ := feed_pellet_state s pc now
  refine ⟨hhun, hclean, hen, ?_⟩
  have h1 : s.hunger ≤ (decay s now).hunger := hunger_le_decay now h
  have h2 : (decay s now).hunger ≤ 100 := (decay_inRange now h).2.1
  have hm : ((min (2 * pc) 10 : ℤ) : ℚ) ≤ 10 := by
    have hz : (min (2 * pc) 10 : ℤ) ≤ 10 := min_le_right _ _
    exact_mod_cast hz
  have h3 := sub_clamp_le h2 hm
  rw [hhun]
  linarith

/-- Witness for C5: from the initial state, a 100-pellet feed drops hunger
by at most 10. -/
theorem feed_pellet_spec_witness :
    InRange (initState 0) ∧
    (initState 0).hunger - (feed (initState 0) FeedKind.pellet 100 0).2.hunger ≤ 10 :=
  ⟨initState_inRange 0,
    (feed_pellet_spec (initState 0) 100 0 (initState_inRange 0)).2.2.2⟩

/-- Claim C6: a `POST /api/feed` request whose `kind` is missing or not
`carrot`/`pellet` gets exactly the fixed feed error body and leaves the
engine state unmutated; likewise `POST /api/play` with `kind` outside
`{pat, toy}` gets the fixed play error body with no state change.  (The
handlers are total functions, so no exception propagates.) -/
theorem invalid_kind_rejected (a : Action) (s : BunnyState) (now : ℚ) :
    (a.kind ≠ some ActionKind.carrot → a.kind ≠ some ActionKind.pellet →
      feedHandler a s now = (Response.error invalid_feed_msg, s)) ∧
    (a.kind ≠ some ActionKind.pat → a.kind ≠ some ActionKind.toy →
      playHandler a s now = (Response.error invalid_play_msg, s)) := by
  constructor
  · intro h1 h2
    rcases hk : a.kind with _ | k
    · simp [feedHandler, hk]
    · cases k <;> simp_all [feedHandler]
  · intro h1 h2
    rcases hk : a.kind with _ | k
    · simp [playHandler, hk]
    · cases k <;> simp_all [playHandler]

/-- Witness for C6: a request with no `kind` is rejected by the feed
handler, and a `carrot` request is rejected by the play handler, both with
the state returned untouched. -/
theorem invalid_kind_rejected_witness :
    feedHandler ⟨none, none⟩ (initState 0) 0 =
      (Response.error invalid_feed_msg, initState 0) ∧
    playHandler ⟨some ActionKind.carrot, none⟩ (initState 0) 0 =
      (Response.error invalid_play_msg, initState 0) := by
  constructor
  · exact (invalid_kind_rejected ⟨none, none⟩ (initState 0) 0).1
      (by simp) (by simp)
  · exact (invalid_kind_rejected ⟨some ActionKind.carrot, none⟩ (initState 0) 0).2
      (by simp) (by simp)

/-- Counterexample to C7 as stated: two `status()` calls 6 seconds apart
(at times 9 and 15, from a state last updated at 0) do NOT report
identical stats — the first call is inside the grace window and leaves
`last_update` at 0, so the second call sees 15 elapsed seconds and applies
decay.  The claim's "regardless of how long before the first call the
previous decay application occurred" is false. -/
theorem debounce_counterexample :
    (15 : ℚ) - 9 < decay_wait ∧
    (status (initState 0) 9).1.hunger = 40 ∧
    (status (status (initState 0) 9).2 15).1.hunger = 41.8 ∧
    (status (status (initState 0) 9).2 15).1.hunger ≠
      (status (initState 0) 9).1.hunger := by
  norm_num [status, decay, initState, decay_wait, isPerfect, clamp]

/-- Claim C7, amended: two `status()` calls separated by less than the
grace period report identical stats, provided the elapsed time from
`last_update` to the second call is within the grace period too — which
holds in particular whenever the first call actually applied decay. -/
theorem debounce_amended (s : BunnyState) (t1 t2 : ℚ)
    (hsep : t2 - t1 < decay_wait)
    (hcond : decay_wait < t1 - s.last_update ∨ t2 - s.last_update ≤ decay_wait) :
    (status (status s t1).2 t2).1.hunger = (status s t1).1.hunger ∧
    (status (status s t1).2 t2).1.happiness = (status s t1).1.happiness ∧
    (status (status s t1).2 t2).1.cleanliness = (status s t1).1.cleanliness ∧
    (status (status s t1).2 t2).1.energy = (status s t1).1.energy := by
  have hlu : (status s t1).2.last_update = (decay s t1).last_update :=
    (status_snd_stats s t1).2.2.2.2
  have hle : t2 - (status s t1).2.last_update ≤ decay_wait := by
    by_cases hc : t1 - s.last_update ≤ decay_wait
    · rw [hlu, decay_noop hc]
      rcases hcond with hgt | hle2
      · linarith
      · exact hle2
    · have hstamp : (decay s t1).last_update = t1 := by
        simp only [decay]
        split_ifs
        rfl
      rw [hlu, hstamp]
      linarith
  obtain ⟨f1, f2, f3, f4⟩ := status_fst_stats (status s t1).2 t2
  rw [decay_noop hle] at f1 f2 f3 f4
  obtain ⟨e1, e2, e3, e4, _⟩ := status_snd_stats s t1
  obtain ⟨g1, g2, g3, g4⟩ := status_fst_stats s t1
  exact ⟨by rw [f1, e1, g1], by rw [f2, e2, g2],
    by rw [f3, e3, g3], by rw [f4, e4, g4]⟩

/-- Witness for the amended C7: a first call at 20 (which applies decay,
20 seconds having elapsed) and a second at 25 report the same hunger. -/
theorem debounce_amended_witness :
    (25 : ℚ) - 20 < decay_wait ∧
    decay_wait < (20 : ℚ) - (initState 0).last_update ∧
    (status (status (initState 0) 20).2 25).1.hunger =
      (status (initState 0) 20).1.hunger := by
  refine ⟨by norm_num [decay_wait], by norm_num [decay_wait, initState], ?_⟩
  exact (debounce_amended (initState 0) 20 25 (by norm_num [decay_wait])
    (Or.inl (by norm_num [decay_wait, initState]))).1

/-- Counterexample to C8 as stated: with elapsed time exactly equal to the
grace period (a second `status()` call at t = 10 after one at t = 0, last
decay application at 0), the code short-circuits (`elapsed_sec <=
decay_wait`), so hunger stays at 40 instead of strictly increasing, even
though it is not pinned at a clamp bound. -/
theorem decay_at_grace_counterexample :
    (status (initState 0) 0).2.last_update = 0 ∧
    (10 : ℚ) - (status (initState 0) 0).2.last_update = decay_wait ∧
    (status (initState 0) 0).1.hunger = 40 ∧
    (status (initState 0) 0).1.hunger < 100 ∧
    (status (status (initState 0) 0).2 10).1.hunger = 40 := by
  norm_num [status, decay, initState, decay_wait, isPerfect, clamp]

/-- Claim C8, amended: absent actions, when the elapsed time since the
last decay application is strictly greater than the grace period, the
second of two consecutive `status()` calls reports strictly greater
hunger, strictly smaller happiness and cleanliness, and strictly greater
energy than the first, except where a stat is pinned at its clamp bound
0 or 100. -/
theorem decay_strict_amended (s : BunnyState) (t1 t2 : ℚ) (h : InRange s)
    (he : decay_wait < t2 - (status s t1).2.last_update) :
    ((status s t1).1.hunger < 100 →
      (status s t1).1.hunger < (status (status s t1).2 t2).1.hunger) ∧
    (0 < (status s t1).1.happiness →
      (status (status s t1).2 t2).1.happiness < (status s t1).1.happiness) ∧
    (0 < (status s t1).1.cleanliness →
      (status (status s t1).2 t2).1.cleanliness < (status s t1).1.cleanliness) ∧
    ((status s t1).1.energy < 100 →
      (status s t1).1.energy < (status (status s t1).2 t2).1.energy) := by
  obtain ⟨q1, q2, q3, q4, q5, q6, q7, q8⟩ := status_inRange t1 h
  have he' : (10 : ℚ) < t2 - (status s t1).2.last_update := by
    simpa [decay_wait] using he
  have hne : ¬ t2 - (status s t1).2.last_update ≤ decay_wait := not_le.mpr he
  obtain ⟨f1, f2, f3, f4⟩ := status_fst_stats (status s t1).2 t2
  have d1 : (decay (status s t1).2 t2).hunger =
      clamp ((status s t1).2.hunger
        + 1.2 * ((t2 - (status s t1).2.last_update) / 10)) := by
    simp only [decay]
    rw [if_neg hne]
  have d2 : (decay (status s t1).2 t2).happiness =
      clamp ((status s t1).2.happiness
        - 0.4 * ((t2 - (status s t1).2.last_update) / 10)) := by
    simp only [decay]
    rw [if_neg hne]
  have d3 : (decay (status s t1).2 t2).cleanliness =
      clamp ((status s t1).2.cleanliness
        - 0.3 * ((t2 - (status s t1).2.last_update) / 10)) := by
    simp only [decay]
    rw [if_neg hne]
  have d4 : (decay (status s t1).2 t2).energy =
      clamp ((status s t1).2.energy
        + 0.3 * ((t2 - (status s t1).2.last_update) / 10)) := by
    simp only [decay]
    rw [if_neg hne]
  have hd1 : (0 : ℚ) < 1.2 * ((t2 - (status s t1).2.last_update) / 10) := by
    nlinarith
  have hd2 : (0 : ℚ) < 0.4 * ((t2 - (status s t1).2.last_update) / 10) := by
    nlinarith
  have hd3 : (0 : ℚ) < 0.3 * ((t2 - (status s t1).2.last_update) / 10) := by
    nlinarith
  refine ⟨?_, ?_, ?_, ?_⟩
  · intro hlt
    rw [f1, d1]
    exact lt_clamp_add hlt (le_of_eq rfl) hd1
  · intro hlt
    rw [f2, d2]
    exact clamp_sub_lt hlt (le_of_eq rfl) q4 hd2
  · intro hlt
    rw [f3, d3]
    exact clamp_sub_lt hlt (le_of_eq rfl) q6 hd3
  · intro hlt
    rw [f4, d4]
    exact lt_clamp_add hlt (le_of_eq rfl) hd3

/-- Witness for the amended C8: from the initial state, a call at t = 0
then a call at t = 20 strictly increases the reported hunger. -/
theorem decay_strict_amended_witness :
    InRange (initState 0) ∧
    decay_wait < (20 : ℚ) - (status (initState 0) 0).2.last_update ∧
    (status (initState 0) 0).1.hunger < 100 ∧
    (status (initState 0) 0).1.hunger <
      (status (status (initState 0) 0).2 20).1.hunger := by
  have h1 : InRange (initState 0) := initState_inRange 0
  have h2 : decay_wait < (20 : ℚ) - (status (initState 0) 0).2.last_update := by
    norm_num [status, decay, initState, decay_wait, isPerfect]
  have h3 : (status (initState 0) 0).1.hunger < 100 := by
    norm_num [status, decay, initState, decay_wait, isPerfect]
  exact ⟨h1, h2, h3, (decay_strict_amended (initState 0) 0 20 h1 h2).1 h3⟩

/-- Counterexample to C9 as stated: `status()` does have a side effect on
the engine state beyond what the decay step specifies.  On a perfect state
with `last_perfect = false` at zero elapsed time, the decay step changes
nothing (so it leaves `perfect_count = 0`), yet the status computation
sets `perfect_count` to 1. -/
theorem status_side_effect_counterexample :
    decay (⟨0, 100, 100, 100, 0, 0, false⟩ : BunnyState) 0 =
      (⟨0, 100, 100, 100, 0, 0, false⟩ : BunnyState) ∧
    (decay (⟨0, 100, 100, 100, 0, 0, false⟩ : BunnyState) 0).perfect_count = 0 ∧
    (status (⟨0, 100, 100, 100, 0, 0, false⟩ : BunnyState) 0).2.perfect_count = 1 := by
  norm_num [status, decay, decay_wait, isPerfect]

/-- Claim C9, amended: `status()` is total (never raises), its snapshot is
the pure function of the current state and time shown below, and its side
effects are exactly the decay step plus the perfect edge-trigger update of
`last_perfect` and `perfect_count`; the stats and `last_update` change
only as decay specifies. -/
theorem status_effects (s : BunnyState) (now : ℚ) :
    (status s now).1.hunger = (decay s now).hunger ∧
    (status s now).1.happiness = (decay s now).happiness ∧
    (status s now).1.cleanliness = (decay s now).cleanliness ∧
    (status s now).1.energy = (decay s now).energy ∧
    (status s now).1.overallHealth =
      round1 (clamp (100 - (decay s now).hunger) * 0.4
        + (decay s now).happiness * 0.3 + (decay s now).cleanliness * 0.2
        + (decay s now).energy * 0.1) ∧
    (status s now).1.easterBunny = decide ((status s now).2.perfect_count = 2) ∧
    (status s now).2.hunger = (decay s now).hunger ∧
    (status s now).2.happiness = (decay s now).happiness ∧
    (status s now).2.cleanliness = (decay s now).cleanliness ∧
    (status s now).2.energy = (decay s now).energy ∧
    (status s now).2.last_update = (decay s now).last_update ∧
    (status s now).2.last_perfect = isPerfect (decay s now) ∧
    (status s now).2.perfect_count =
      (if isPerfect (decay s now) && !(decay s now).last_perfect
       then (decay s now).perfect_count + 1
       else (decay s now).perfect_count) :=
  ⟨rfl, rfl, rfl, rfl, rfl, rfl, rfl, rfl, rfl, rfl, rfl, rfl, rfl⟩

/-- Claim C10: for every integer `pellet_count ≤ 0`, `feed("pellet", n)`
completes and acts in reverse: the capped amount `min(2n, 10)` equals
`2n ≤ 0`, so hunger does not decrease (strictly increases when `n < 0`
and hunger is below 100), and the mess cost `n` is non-positive, so the
pellet step does not decrease cleanliness; both results stay clamped to
`[0, 100]`. -/
theorem feed_pellet_nonpositive (s : BunnyState) (pc : ℤ) (now : ℚ)
    (h : InRange s) (hpc : pc ≤ 0) :
    (min (2 * pc) 10 : ℤ) = 2 * pc ∧ (2 * pc : ℤ) ≤ 0 ∧
    (feed s FeedKind.pellet pc now).2.hunger =
      clamp ((decay s now).hunger - ((2 * pc : ℤ) : ℚ)) ∧
    s.hunger ≤ (feed s FeedKind.pellet pc now).2.hunger ∧
    (pc < 0 → s.hunger < 100 →
      s.hunger < (feed s FeedKind.pellet pc now).2.hunger) ∧
    (feed s FeedKind.pellet pc now).2.cleanliness =
      clamp ((decay s now).cleanliness - (pc : ℚ)) ∧
    (decay s now).cleanliness ≤ (feed s FeedKind.pellet pc now).2.cleanliness ∧
    0 ≤ (feed s FeedKind.pellet pc now).2.hunger ∧
    (feed s FeedKind.pellet pc now).2.hunger ≤ 100 ∧
    0 ≤ (feed s FeedKind.pellet pc now).2.cleanliness ∧
    (feed s FeedKind.pellet pc now).2.cleanliness ≤ 100 := by
  obtain ⟨hh, hc, _⟩ := feed_pellet_state s pc now
  have hmin : (min (2 * pc) 10 : ℤ) = 2 * pc := min_eq_left (by omega)
  have hmess : (if pc ≤ 5 then pc else 5 + 2 * (pc - 5) : ℤ) = pc :=
    if_pos (by omega)
  rw [hmin] at hh
  rw [hmess] at hc
  obtain ⟨w1, w2, w3, w4, w5, w6, w7, w8⟩ := decay_inRange now h
  have h2pc : ((2 * pc : ℤ) : ℚ) ≤ 0 := by
    have hz : (2 * pc : ℤ) ≤ 0 := by omega
    exact_mod_cast hz
  have hpcq : ((pc : ℤ) : ℚ) ≤ 0 := by exact_mod_cast hpc
  have hsub : (decay s now).hunger - ((2 * pc : ℤ) : ℚ) =
      (decay s now).hunger + (-((2 * pc : ℤ) : ℚ)) := by ring
  have hsubc : (decay s now).cleanliness - ((pc : ℤ) : ℚ) =
      (decay s now).cleanliness + (-((pc : ℤ) : ℚ)) := by ring
  refine ⟨hmin, by omega, hh, ?_, ?_, hc, ?_, ?_, ?_, ?_, ?_⟩
  · rw [hh, hsub]
    exact le_trans (hunger_le_decay now h) (le_clamp_add w2 (by linarith))
  · intro hlt hhlt
    rw [hh, hsub]
    have hd : (0 : ℚ) < -((2 * pc : ℤ) : ℚ) := by
      have hz : (2 * pc : ℤ) < 0 := by omega
      have hq : ((2 * pc : ℤ) : ℚ) < 0 := by exact_mod_cast hz
      linarith
    exact lt_clamp_add hhlt (hunger_le_decay now h) hd
  · rw [hc, hsubc]
    exact le_clamp_add w6 (by linarith)
  · rw [hh]
    exact clamp_nonneg _
  · rw [hh]
    exact clamp_le_hundred _
  · rw [hc]
    exact clamp_nonneg _
  · rw [hc]
    exact clamp_le_hundred _

/-- Witness for C10: feeding −3 pellets from the initial state strictly
increases hunger (40 → 46). -/
theorem feed_pellet_nonpositive_witness :
    InRange (initState 0) ∧ (-3 : ℤ) ≤ 0 ∧ (-3 : ℤ) < 0 ∧
    (initState 0).hunger < 100 ∧
    (initState 0).hunger < (feed (initState 0) FeedKind.pellet (-3) 0).2.hunger := by
  have h1 : InRange (initState 0) := initState_inRange 0
  have h4 : (initState 0).hunger < 100 := by norm_num [initState]
  exact ⟨h1, by norm_num, by norm_num, h4,
    (feed_pellet_nonpositive (initState 0) (-3) 0 h1 (by norm_num)).2.2.2.2.1
      (by norm_num) h4⟩

end BunnyCare
